import Mathlib

/-!
A verification development for the NBA workshop application
(Next.js/React frontend over a Flask JSON API).

The definitions below are shallow embeddings of the client-side logic in
`frontend/src/app/(dashboard)/player-stats/page.tsx`,
`frontend/src/app/(dashboard)/teams/page.tsx`,
`frontend/src/app/(dashboard)/add-player/page.tsx`, the stadiums page's
`fetchStadiums`, and — where the backend `app.py` itself is absent from the
sources — a model of the request guard described in
`backend/SECURITY_IMPLEMENTATION.md`.

JavaScript numbers used as sort keys (per-game averages) are embedded as `Rat`;
their comparison by `<` coincides with the rational order on the values that
occur. JavaScript strings are embedded as `String`, `toLowerCase` as the
per-character map `jsToLower`, string comparison as the lexicographic order on
the character list, and `Array.prototype.sort` — which ECMAScript requires to
be a stable sort — as `List.mergeSort`, a stable sort, applied to the source
comparator.
-/

set_option maxHeartbeats 1000000

/-- The `SortDirection` union type of `player-stats/page.tsx`. -/
inductive SortDirection where
  | asc
  | desc
deriving DecidableEq

/-- The `SortField` union type of `player-stats/page.tsx`. -/
inductive SortField where
  | name
  | team
  | points
  | rebounds
  | assists
  | games
deriving DecidableEq

/-- The `PlayerStat` interface of `player-stats/page.tsx`. -/
structure PlayerStat where
  id : Nat
  name : String
  team : String
  position : String
  points : Rat
  rebounds : Rat
  assists : Rat
  games : Nat
deriving DecidableEq

/-- `String.prototype.toLowerCase`, embedded as the per-character lowercase
map over the string's characters. -/
def jsToLower (s : String) : String :=
  ⟨s.data.map Char.toLower⟩

/-- The sign computation of the comparator in `sortedPlayers`
(`player-stats/page.tsx` lines 107-109): `-1` when the first key is smaller,
`1` when it is larger, `0` otherwise, with the signs swapped for descending. -/
def cmpVal {β : Type} [LinearOrder β] (dir : SortDirection) (a b : β) : Int :=
  if a < b then (if dir = .asc then -1 else 1)
  else if b < a then (if dir = .asc then 1 else -1)
  else 0

/-- The comparator passed to `[...players].sort` in `player-stats/page.tsx`
lines 97-110: it reads the active field of both records, lowercases the two
values when they are strings (fields `name` and `team`), and compares.
JavaScript compares strings lexicographically by code unit, embedded here as
the lexicographic order on the character list. -/
def playerCmp (f : SortField) (d : SortDirection) (a b : PlayerStat) : Int :=
  match f with
  | .name => cmpVal d (jsToLower a.name).data (jsToLower b.name).data
  | .team => cmpVal d (jsToLower a.team).data (jsToLower b.team).data
  | .points => cmpVal d a.points b.points
  | .rebounds => cmpVal d a.rebounds b.rebounds
  | .assists => cmpVal d a.assists b.assists
  | .games => cmpVal d a.games b.games

/-- `const sortedPlayers = [...players].sort((a, b) => ...)` of
`player-stats/page.tsx`: the fetched list, sorted by the active field and
direction. `Array.prototype.sort` is required by ECMAScript to be stable, and
it operates on the spread copy `[...players]`, so it is embedded as a pure
stable sort (`List.mergeSort`) under the source comparator. -/
def sortedPlayers (f : SortField) (d : SortDirection) (players : List PlayerStat) :
    List PlayerStat :=
  players.mergeSort (fun a b => decide (playerCmp f d a b ≤ 0))

/-- Sort state of the player-stats page: the `sortField` and `sortDirection`
`useState` hooks. Initial value is `points` descending. -/
structure SortState where
  sortField : SortField
  sortDirection : SortDirection
deriving DecidableEq

/-- `sortDirection === "asc" ? "desc" : "asc"` (line 88). -/
def flipDirection : SortDirection → SortDirection
  | .asc => .desc
  | .desc => .asc

/-- `field === "name" || field === "team" ? "asc" : "desc"` (line 92). -/
def defaultDirection (f : SortField) : SortDirection :=
  if f = .name ∨ f = .team then .asc else .desc

/-- The `handleSort` click handler of `player-stats/page.tsx` lines 85-94:
clicking the active column flips the direction; clicking a new column selects
it with its default direction. -/
def handleSort (f : SortField) (s : SortState) : SortState :=
  if s.sortField = f then
    { s with sortDirection := flipDirection s.sortDirection }
  else
    { sortField := f, sortDirection := defaultDirection f }

section CmpLemmas

variable {β : Type} [LinearOrder β]

theorem cmpVal_asc (a b : β) :
    cmpVal .asc a b = if a < b then -1 else if b < a then 1 else 0 := by
  simp [cmpVal]

theorem cmpVal_desc (a b : β) :
    cmpVal .desc a b = if a < b then 1 else if b < a then -1 else 0 := by
  simp [cmpVal]

theorem cmpVal_asc_le_iff (a b : β) : cmpVal .asc a b ≤ 0 ↔ a ≤ b := by
  rw [cmpVal_asc]
  rcases lt_trichotomy a b with h | h | h
  · rw [if_pos h]; exact iff_of_true (by decide) (le_of_lt h)
  · subst h; rw [if_neg (lt_irrefl a), if_neg (lt_irrefl a)]
    exact iff_of_true (by decide) le_rfl
  · rw [if_neg (lt_asymm h), if_pos h]
    exact iff_of_false (by decide) (not_le.mpr h)

theorem cmpVal_desc_le_iff (a b : β) : cmpVal .desc a b ≤ 0 ↔ b ≤ a := by
  rw [cmpVal_desc]
  rcases lt_trichotomy a b with h | h | h
  · rw [if_pos h]; exact iff_of_false (by decide) (not_le.mpr h)
  · subst h; rw [if_neg (lt_irrefl a), if_neg (lt_irrefl a)]
    exact iff_of_true (by decide) le_rfl
  · rw [if_neg (lt_asymm h), if_pos h]
    exact iff_of_true (by decide) (le_of_lt h)

theorem cmpVal_eq_zero_iff (d : SortDirection) (a b : β) :
    cmpVal d a b = 0 ↔ a = b := by
  rcases d <;> [rw [cmpVal_asc]; rw [cmpVal_desc]] <;>
  · rcases lt_trichotomy a b with h | h | h
    · rw [if_pos h]; exact iff_of_false (by decide) (ne_of_lt h)
    · subst h; rw [if_neg (lt_irrefl a), if_neg (lt_irrefl a)]
      exact iff_of_true rfl rfl
    · rw [if_neg (lt_asymm h), if_pos h]
      exact iff_of_false (by decide) (ne_of_gt h)

theorem cmpVal_le_total (d : SortDirection) (a b : β) :
    cmpVal d a b ≤ 0 ∨ cmpVal d b a ≤ 0 := by
  rcases d
  · rw [cmpVal_asc_le_iff, cmpVal_asc_le_iff]; exact le_total a b
  · rw [cmpVal_desc_le_iff, cmpVal_desc_le_iff]; exact le_total b a

theorem cmpVal_le_trans (d : SortDirection) (a b c : β)
    (hab : cmpVal d a b ≤ 0) (hbc : cmpVal d b c ≤ 0) : cmpVal d a c ≤ 0 := by
  rcases d
  · rw [cmpVal_asc_le_iff] at *; exact le_trans hab hbc
  · rw [cmpVal_desc_le_iff] at *; exact le_trans hbc hab

end CmpLemmas

section PlayerCmpLemmas

theorem playerCmp_le_total (f : SortField) (d : SortDirection) (a b : PlayerStat) :
    playerCmp f d a b ≤ 0 ∨ playerCmp f d b a ≤ 0 := by
  cases f <;> exact cmpVal_le_total d _ _

theorem playerCmp_le_trans (f : SortField) (d : SortDirection) (a b c : PlayerStat)
    (hab : playerCmp f d a b ≤ 0) (hbc : playerCmp f d b c ≤ 0) :
    playerCmp f d a c ≤ 0 := by
  cases f <;> exact cmpVal_le_trans d _ _ _ hab hbc

end PlayerCmpLemmas

/-- The per-field sort key order the specification describes, written from the
spec's words for comparison with the source comparator `playerCmp`: string
fields `name` and `team` compare case-insensitively (lowercased), numeric
fields compare numerically. -/
def specFieldLe (f : SortField) (a b : PlayerStat) : Prop :=
  match f with
  | .name => (jsToLower a.name).data ≤ (jsToLower b.name).data
  | .team => (jsToLower a.team).data ≤ (jsToLower b.team).data
  | .points => a.points ≤ b.points
  | .rebounds => a.rebounds ≤ b.rebounds
  | .assists => a.assists ≤ b.assists
  | .games => a.games ≤ b.games

/-- The display order the specification describes: `specFieldLe` for
ascending, its reverse for descending. -/
def specKeyLe (f : SortField) (d : SortDirection) (a b : PlayerStat) : Prop :=
  match d with
  | .asc => specFieldLe f a b
  | .desc => specFieldLe f b a

/-- Key equality for the active field, written from the spec's words
(case-insensitive for the string fields): two records are tied in the sort
exactly when their keys are equal. -/
def specKeyEqb (f : SortField) (a b : PlayerStat) : Bool :=
  match f with
  | .name => decide ((jsToLower a.name).data = (jsToLower b.name).data)
  | .team => decide ((jsToLower a.team).data = (jsToLower b.team).data)
  | .points => decide (a.points = b.points)
  | .rebounds => decide (a.rebounds = b.rebounds)
  | .assists => decide (a.assists = b.assists)
  | .games => decide (a.games = b.games)

theorem playerCmp_le_iff (f : SortField) (d : SortDirection) (a b : PlayerStat) :
    playerCmp f d a b ≤ 0 ↔ specKeyLe f d a b := by
  rcases d <;> cases f <;>
    first
      | exact cmpVal_asc_le_iff _ _
      | exact cmpVal_desc_le_iff _ _

theorem playerCmp_eq_zero_iff (f : SortField) (d : SortDirection) (a b : PlayerStat) :
    playerCmp f d a b = 0 ↔ specKeyEqb f a b = true := by
  cases f <;> simp [playerCmp, specKeyEqb, cmpVal_eq_zero_iff]

theorem specKeyEqb_symm (f : SortField) (a b : PlayerStat)
    (h : specKeyEqb f a b = true) : specKeyEqb f b a = true := by
  cases f <;> simp only [specKeyEqb, decide_eq_true_iff] at h ⊢ <;> exact h.symm

theorem specKeyEqb_trans (f : SortField) (a b c : PlayerStat)
    (h1 : specKeyEqb f a b = true) (h2 : specKeyEqb f b c = true) :
    specKeyEqb f a c = true := by
  cases f <;> simp only [specKeyEqb, decide_eq_true_iff] at h1 h2 ⊢ <;>
    exact h1.trans h2

section SortProofs

variable (f : SortField) (d : SortDirection)

theorem playersLe_trans : ∀ (a b c : PlayerStat),
    (fun a b => decide (playerCmp f d a b ≤ 0)) a b →
    (fun a b => decide (playerCmp f d a b ≤ 0)) b c →
    (fun a b => decide (playerCmp f d a b ≤ 0)) a c := by
  intro a b c hab hbc
  simp only [decide_eq_true_iff] at *
  exact playerCmp_le_trans f d a b c hab hbc

theorem playersLe_total : ∀ (a b : PlayerStat),
    (fun a b => decide (playerCmp f d a b ≤ 0)) a b
      || (fun a b => decide (playerCmp f d a b ≤ 0)) b a := by
  intro a b
  simp only [Bool.or_eq_true, decide_eq_true_iff]
  exact playerCmp_le_total f d a b

theorem sortedPlayers_pairwise (l : List PlayerStat) :
    (sortedPlayers f d l).Pairwise (specKeyLe f d) := by
  have h := List.sorted_mergeSort (playersLe_trans f d) (playersLe_total f d) l
  exact h.imp (fun hab => (playerCmp_le_iff f d _ _).mp (by simpa using hab))

theorem sortedPlayers_stable (l : List PlayerStat) (p : PlayerStat) :
    (sortedPlayers f d l).filter (fun x => specKeyEqb f x p)
      = l.filter (fun x => specKeyEqb f x p) := by
  set P : PlayerStat → Bool := fun x => specKeyEqb f x p with hP
  have hidem : (l.filter P).filter P = l.filter P :=
    List.filter_eq_self.mpr (fun a ha => List.of_mem_filter ha)
  have hpw : (l.filter P).Pairwise
      (fun a b => (fun a b => decide (playerCmp f d a b ≤ 0)) a b) := by
    apply List.pairwise_of_forall_mem_list
    intro a ha b hb
    have hap : P a = true := List.of_mem_filter ha
    have hbp : P b = true := List.of_mem_filter hb
    have hab : specKeyEqb f a b = true :=
      specKeyEqb_trans f a p b hap (specKeyEqb_symm f b p hbp)
    have hz : playerCmp f d a b = 0 := (playerCmp_eq_zero_iff f d a b).mpr hab
    simp [hz]
  have h1 : List.Sublist (l.filter P) (sortedPlayers f d l) :=
    List.sublist_mergeSort (playersLe_trans f d) (playersLe_total f d) hpw
      (List.filter_sublist l)
  have h2 := h1.filter P
  rw [hidem] at h2
  have h3 : ((sortedPlayers f d l).filter P).Perm (l.filter P) :=
    (List.mergeSort_perm l _).filter P
  exact (h2.eq_of_length h3.length_eq.symm).symm

end SortProofs

/-- C1: for every list of `PlayerStat` records, every sort field and every
direction, the player-stats table's sort produces the list stably ordered by
that field — string fields (`name`, `team`) case-insensitively, numeric fields
numerically, in the chosen direction (`specKeyLe`) — and records whose keys
compare equal (`specKeyEqb`) retain their prior relative order: filtering the
displayed list down to the records tied with any record `p` yields exactly the
same subsequence, in the same order, as filtering the fetched list. -/
theorem sortedPlayers_sorted_and_stable (f : SortField) (d : SortDirection)
    (l : List PlayerStat) :
    (sortedPlayers f d l).Pairwise (specKeyLe f d)
    ∧ ∀ p : PlayerStat,
        (sortedPlayers f d l).filter (fun x => specKeyEqb f x p)
          = l.filter (fun x => specKeyEqb f x p) :=
  ⟨sortedPlayers_pairwise f d l, fun p => sortedPlayers_stable f d l p⟩

/-- C8: sorting never changes which records are shown — the displayed list is
a permutation (the same multiset) of the fetched `players` state. The embedded
`sortedPlayers` is a pure function of the state, mirroring that the source
sorts the spread copy `[...players]` and leaves the state untouched. -/
theorem sortedPlayers_perm (f : SortField) (d : SortDirection)
    (l : List PlayerStat) : (sortedPlayers f d l).Perm l :=
  List.mergeSort_perm l _

/-- C2: for every current sort state and clicked column, `handleSort` flips
the direction and keeps the field when the clicked column is the active one;
otherwise it selects the clicked column with direction ascending for the text
fields (`name`, `team`) and descending for the numeric fields. -/
theorem handleSort_toggle_or_reset (s : SortState) (f : SortField) :
    (f = s.sortField →
      handleSort f s =
        { sortField := s.sortField,
          sortDirection := flipDirection s.sortDirection })
    ∧ (f ≠ s.sortField →
      handleSort f s =
        { sortField := f,
          sortDirection := if f = .name ∨ f = .team then .asc else .desc }) := by
  constructor
  · intro h
    rw [handleSort, if_pos h.symm]
  · intro h
    rw [handleSort, if_neg (Ne.symm h)]
    rfl

/-- Witness for C2: from the initial state (`points` descending), clicking
`points` flips to ascending; clicking `name` selects `name` ascending. -/
theorem handleSort_toggle_or_reset_witness :
    (SortField.points = (SortState.mk .points .desc).sortField
      ∧ handleSort .points (SortState.mk .points .desc) =
          { sortField := (SortState.mk .points .desc).sortField,
            sortDirection := flipDirection (SortState.mk .points .desc).sortDirection })
    ∧ (SortField.name ≠ (SortState.mk .points .desc).sortField
      ∧ handleSort .name (SortState.mk .points .desc) =
          { sortField := SortField.name,
            sortDirection :=
              if SortField.name = .name ∨ SortField.name = .team then .asc
              else .desc }) :=
  ⟨⟨rfl, (handleSort_toggle_or_reset (SortState.mk .points .desc) .points).1 rfl⟩,
   ⟨by decide, (handleSort_toggle_or_reset (SortState.mk .points .desc) .name).2 (by decide)⟩⟩

/-- C5: toggling the sort on the currently-active column alternates the
direction (each click flips it, and the flipped direction differs), toggling
twice restores the sort state, and — the sort being a deterministic stable
sort over the unchanged `players` state — the displayed order after a double
toggle equals the displayed order before it. -/
theorem handleSort_double_toggle (s : SortState) (f : SortField)
    (l : List PlayerStat) (h : s.sortField = f) :
    (handleSort f s).sortDirection = flipDirection s.sortDirection
    ∧ flipDirection s.sortDirection ≠ s.sortDirection
    ∧ handleSort f (handleSort f s) = s
    ∧ sortedPlayers (handleSort f (handleSort f s)).sortField
        (handleSort f (handleSort f s)).sortDirection l
      = sortedPlayers s.sortField s.sortDirection l := by
  have h3 : handleSort f (handleSort f s) = s := by
    obtain ⟨sf, sd⟩ := s
    obtain rfl : sf = f := h
    cases sd <;> simp [handleSort, flipDirection]
  have h1 : (handleSort f s).sortDirection = flipDirection s.sortDirection := by
    rw [handleSort, if_pos h]
  have h2 : flipDirection s.sortDirection ≠ s.sortDirection := by
    cases hsd : s.sortDirection <;> decide
  exact ⟨h1, h2, h3, by rw [h3]⟩

/-- Witness for C5 at the state sorting by `name` ascending and the empty
player list: both toggles act on the active column `name`. -/
theorem handleSort_double_toggle_witness :
    (SortState.mk .name .asc).sortField = .name
    ∧ ((handleSort .name (SortState.mk .name .asc)).sortDirection
          = flipDirection (SortState.mk .name .asc).sortDirection
      ∧ flipDirection (SortState.mk .name .asc).sortDirection
          ≠ (SortState.mk .name .asc).sortDirection
      ∧ handleSort .name (handleSort .name (SortState.mk .name .asc))
          = SortState.mk .name .asc
      ∧ sortedPlayers
            (handleSort .name (handleSort .name (SortState.mk .name .asc))).sortField
            (handleSort .name (handleSort .name (SortState.mk .name .asc))).sortDirection
            []
          = sortedPlayers (SortState.mk .name .asc).sortField
              (SortState.mk .name .asc).sortDirection []) :=
  ⟨rfl, handleSort_double_toggle (SortState.mk .name .asc) .name [] rfl⟩

/-- The `Team` interface of `teams/page.tsx`. -/
structure Team where
  id : Nat
  name : String
  city : String
  conference : String
deriving DecidableEq

/-- `String.prototype.includes`: `strIncludes s q = true` exactly when `q`
occurs as a contiguous substring of `s` (witnessed below by
`strIncludes_eq_true_iff`); the empty string occurs in every string. -/
def strIncludes (s q : String) : Bool :=
  s.data.tails.any (fun t => q.data.isPrefixOf t)

/-- The filter predicate of `filteredTeams` (`teams/page.tsx` lines 70-76):
`team.name.toLowerCase().includes(query) || team.city.toLowerCase().includes(query)`
where `query` is the lowercased search text. -/
def teamMatches (searchQuery : String) (team : Team) : Bool :=
  strIncludes (jsToLower team.name) (jsToLower searchQuery)
    || strIncludes (jsToLower team.city) (jsToLower searchQuery)

/-- `const filteredTeams = teams.filter(...)` of `teams/page.tsx`. -/
def filteredTeams (searchQuery : String) (teams : List Team) : List Team :=
  teams.filter (teamMatches searchQuery)

/-- `const easternTeams = filteredTeams.filter((t) => t.conference === "Eastern")`
(`teams/page.tsx` line 139); the page renders exactly this list in the Eastern
Conference section. -/
def easternTeams (searchQuery : String) (teams : List Team) : List Team :=
  (filteredTeams searchQuery teams).filter (fun t => decide (t.conference = "Eastern"))

/-- `const westernTeams = filteredTeams.filter((t) => t.conference === "Western")`
(`teams/page.tsx` line 140); the page renders exactly this list in the Western
Conference section. -/
def westernTeams (searchQuery : String) (teams : List Team) : List Team :=
  (filteredTeams searchQuery teams).filter (fun t => decide (t.conference = "Western"))

theorem strIncludes_eq_true_iff (s q : String) :
    strIncludes s q = true ↔ List.IsInfix q.data s.data := by
  unfold strIncludes
  rw [List.any_eq_true]
  constructor
  · rintro ⟨t, ht, hpre⟩
    exact List.infix_iff_prefix_suffix.mpr
      ⟨t, List.isPrefixOf_iff_prefix.mp hpre, (List.mem_tails t s.data).mp ht⟩
  · intro h
    obtain ⟨t, hpre, hsuf⟩ := List.infix_iff_prefix_suffix.mp h
    exact ⟨t, (List.mem_tails t s.data).mpr hsuf, List.isPrefixOf_iff_prefix.mpr hpre⟩

theorem strIncludes_empty_substring (s : String) : strIncludes s "" = true := by
  unfold strIncludes
  rw [List.any_eq_true]
  refine ⟨s.data, (List.mem_tails _ _).mpr (List.suffix_refl _), ?_⟩
  cases s.data <;> rfl

/-- C3: for every team list and search query, the filtered result is a
sublist (hence a subset, in order) of the full list, and every included team's
lowercased name or lowercased city contains the lowercased query as a
contiguous substring. -/
theorem filteredTeams_sublist_and_matches (teams : List Team) (q : String) :
    List.Sublist (filteredTeams q teams) teams
    ∧ ∀ t ∈ filteredTeams q teams,
        List.IsInfix (jsToLower q).data (jsToLower t.name).data
        ∨ List.IsInfix (jsToLower q).data (jsToLower t.city).data := by
  refine ⟨List.filter_sublist teams, fun t ht => ?_⟩
  have h : teamMatches q t = true := List.of_mem_filter ht
  unfold teamMatches at h
  rw [Bool.or_eq_true] at h
  rcases h with h1 | h1
  · exact Or.inl ((strIncludes_eq_true_iff _ _).mp h1)
  · exact Or.inr ((strIncludes_eq_true_iff _ _).mp h1)

/-- A concrete Eastern-conference team used in witnesses. -/
def sampleTeamE : Team :=
  { id := 1, name := "Celtics", city := "Boston", conference := "Eastern" }

/-- Witness for C3: searching `"celt"` over the one-team list keeps
`sampleTeamE`, whose lowercased name contains `"celt"`. -/
theorem filteredTeams_sublist_and_matches_witness :
    sampleTeamE ∈ filteredTeams "celt" [sampleTeamE]
    ∧ (List.IsInfix (jsToLower "celt").data (jsToLower sampleTeamE.name).data
       ∨ List.IsInfix (jsToLower "celt").data (jsToLower sampleTeamE.city).data) :=
  ⟨by decide,
   (filteredTeams_sublist_and_matches [sampleTeamE] "celt").2 sampleTeamE (by decide)⟩

/-- C4: filtering with the empty search query returns the full team list
unchanged — the empty query is an identity for the filter. -/
theorem filteredTeams_empty_query (teams : List Team) :
    filteredTeams "" teams = teams := by
  apply List.filter_eq_self.mpr
  intro t ht
  unfold teamMatches
  rw [show jsToLower "" = "" from rfl, strIncludes_empty_substring, Bool.true_or]

/-- C9: a team of the filtered list is rendered in the Eastern Conference
section exactly when its conference string is `"Eastern"`, in the Western
section exactly when it is `"Western"`, and a team with any other conference
string appears in neither section while still being a member of the filtered
list the results total counts. -/
theorem teams_conference_sections (q : String) (teams : List Team) (t : Team)
    (ht : t ∈ filteredTeams q teams) :
    (t ∈ easternTeams q teams ↔ t.conference = "Eastern")
    ∧ (t ∈ westernTeams q teams ↔ t.conference = "Western")
    ∧ (t.conference ≠ "Eastern" → t.conference ≠ "Western" →
        t ∉ easternTeams q teams ∧ t ∉ westernTeams q teams) := by
  have he : t ∈ easternTeams q teams ↔ t.conference = "Eastern" := by
    rw [easternTeams, List.mem_filter]
    simp [ht]
  have hw : t ∈ westernTeams q teams ↔ t.conference = "Western" := by
    rw [westernTeams, List.mem_filter]
    simp [ht]
  exact ⟨he, hw,
    fun h1 h2 => ⟨fun hm => h1 (he.mp hm), fun hm => h2 (hw.mp hm)⟩⟩

/-- A concrete team whose conference string is neither `"Eastern"` nor
`"Western"`, used in the C9 witness. -/
def sampleTeamC : Team :=
  { id := 99, name := "Stars", city := "Springfield", conference := "Central" }

/-- Witness for C9 at the empty query and a one-team list whose team has
conference `"Central"`: it is in the filtered list yet in neither section. -/
theorem teams_conference_sections_witness :
    sampleTeamC ∈ filteredTeams "" [sampleTeamC]
    ∧ ((sampleTeamC ∈ easternTeams "" [sampleTeamC]
          ↔ sampleTeamC.conference = "Eastern")
      ∧ (sampleTeamC ∈ westernTeams "" [sampleTeamC]
          ↔ sampleTeamC.conference = "Western")
      ∧ (sampleTeamC.conference ≠ "Eastern" → sampleTeamC.conference ≠ "Western" →
          sampleTeamC ∉ easternTeams "" [sampleTeamC]
          ∧ sampleTeamC ∉ westernTeams "" [sampleTeamC])) :=
  ⟨by decide, teams_conference_sections "" [sampleTeamC] sampleTeamC (by decide)⟩

/-- A created player record. Modelled from the spec: the backend `app.py` is
not among the sources (only `backend/SECURITY_IMPLEMENTATION.md` and
`backend/README.md` describe it); the write path stores name, position and
team with a server-assigned id. -/
structure Player where
  id : Nat
  name : String
  position : String
  team : String
deriving DecidableEq

/-- Modelled from the spec: the JSON body of `POST /api/players`; each
required field may be absent. -/
structure PlayerBody where
  name : Option String
  position : Option String
  team : Option String

/-- Modelled from the spec: the backend's per-request view of the flat-file
player store, plus the next server-assigned id. -/
structure ServerState where
  players : List Player
  nextId : Nat

/-- Modelled from the spec: the `@require_api_key`-guarded
`POST /api/players` handler described in `backend/SECURITY_IMPLEMENTATION.md`.
Missing `X-API-Key` → 401; a key outside the configured allow-list → 403; a
present key with a body missing a required field or exceeding the maximum
lengths (name 100, position 50, team 100) → 400; otherwise 201 and the record
is appended to the store. -/
def postPlayers (allowList : List String) (apiKey : Option String)
    (body : PlayerBody) (st : ServerState) : Nat × ServerState :=
  match apiKey with
  | none => (401, st)
  | some k =>
    if k ∈ allowList then
      match body.name, body.position, body.team with
      | some n, some p, some t =>
        if n.length ≤ 100 ∧ p.length ≤ 50 ∧ t.length ≤ 100 then
          (201, { players := st.players ++ [⟨st.nextId, n, p, t⟩],
                  nextId := st.nextId + 1 })
        else (400, st)
      | _, _, _ => (400, st)
    else (403, st)

/-- Modelled from the spec: `GET /api/player-info` returns the stored player
records. -/
def getPlayers (st : ServerState) : List Player :=
  st.players

/-- C6: for every request to the protected route — a missing `X-API-Key`
yields status 401; a key outside the allow-list yields 403; a valid key with a
valid body yields 201 and the created record is afterwards retrievable via the
corresponding GET. -/
theorem postPlayers_auth_guard (allowList : List String) (key : Option String)
    (body : PlayerBody) (st : ServerState) :
    (key = none → (postPlayers allowList key body st).1 = 401)
    ∧ (∀ k, key = some k → k ∉ allowList →
        (postPlayers allowList key body st).1 = 403)
    ∧ (∀ k n p t, key = some k → k ∈ allowList →
        body.name = some n → body.position = some p → body.team = some t →
        n.length ≤ 100 → p.length ≤ 50 → t.length ≤ 100 →
        (postPlayers allowList key body st).1 = 201
        ∧ (⟨st.nextId, n, p, t⟩ : Player)
            ∈ getPlayers (postPlayers allowList key body st).2) := by
  refine ⟨?_, ?_, ?_⟩
  · rintro rfl
    rfl
  · rintro k rfl hk
    simp [postPlayers, hk]
  · rintro k n p t rfl hk hn hp htm h1 h2 h3
    simp [postPlayers, getPlayers, hk, hn, hp, htm, h1, h2, h3]

/-- Witness for C6: the documented development key posting a valid body to an
empty store returns 201 and the record is in the subsequent GET. -/
theorem postPlayers_auth_guard_witness :
    ("dev-api-key-12345" : String) ∈ ["dev-api-key-12345"]
    ∧ ("Test" : String).length ≤ 100
    ∧ ("Guard" : String).length ≤ 50
    ∧ ("Lakers" : String).length ≤ 100
    ∧ ((postPlayers ["dev-api-key-12345"] (some "dev-api-key-12345")
          ⟨some "Test", some "Guard", some "Lakers"⟩ ⟨[], 1⟩).1 = 201
      ∧ (⟨1, "Test", "Guard", "Lakers"⟩ : Player)
          ∈ getPlayers (postPlayers ["dev-api-key-12345"] (some "dev-api-key-12345")
              ⟨some "Test", some "Guard", some "Lakers"⟩ ⟨[], 1⟩).2) :=
  ⟨by decide, by decide, by decide, by decide,
   (postPlayers_auth_guard ["dev-api-key-12345"] (some "dev-api-key-12345")
       ⟨some "Test", some "Guard", some "Lakers"⟩ ⟨[], 1⟩).2.2
     "dev-api-key-12345" "Test" "Guard" "Lakers" rfl (by decide) rfl rfl rfl
     (by decide) (by decide) (by decide)⟩

/-- The `Stadium` interface of the stadiums page. -/
structure Stadium where
  id : Nat
  name : String
  team : String
  location : String
  capacity : Nat
  opened : Nat
  imageUrl : Option String
deriving DecidableEq

/-- The two response-body shapes named by the claim for `GET /api/stadiums`:
the wrapped object `{ stadiums: Stadium[] }` and a bare array. -/
inductive StadiumsBody where
  | wrapped (stadiums : List Stadium)
  | bare (stadiums : List Stadium)

/-- The result extraction of `fetchStadiums` in the stadiums page:
`return data.stadiums || []`. On the wrapped shape the `stadiums` property is
the contained array (an empty array is truthy in JavaScript, so `|| []` keeps
it). On a bare array the property access `data.stadiums` is `undefined`, so
the expression evaluates to `[]`. -/
def fetchStadiums : StadiumsBody → List Stadium
  | .wrapped l => l
  | .bare _ => []

/-- A concrete stadium record used in the C7 counterexample. -/
def sampleStadium : Stadium :=
  { id := 1, name := "TD Garden", team := "Celtics", location := "Boston, MA",
    capacity := 19156, opened := 1995, imageUrl := none }

/-- Counterexample to C7 as stated: on a bare one-element array the client
yields the empty list, not the contained stadium list. -/
theorem fetchStadiums_bare_counterexample :
    fetchStadiums (.bare [sampleStadium]) = []
    ∧ fetchStadiums (.bare [sampleStadium]) ≠ [sampleStadium] :=
  ⟨rfl, by decide⟩

/-- C7 amended: for every response body to `GET /api/stadiums`, the client
yields the contained stadium list when the body has the wrapped shape
`{ stadiums: Stadium[] }`, and yields the empty list — not the contained
list — when the body is a bare array. -/
theorem fetchStadiums_shapes (l : List Stadium) :
    fetchStadiums (.wrapped l) = l ∧ fetchStadiums (.bare l) = [] :=
  ⟨rfl, rfl⟩

/-- The five `useState` hooks of `add-player/page.tsx`. -/
structure AddPlayerForm where
  playerName : String
  playerPosition : String
  playerTeam : String
  errorMessage : String
  isLoading : Bool
deriving DecidableEq

/-- The possible outcomes of the `fetch` in `handleSubmit`: a response with
`response.ok` true, a response with a non-2xx status, or a thrown network
error. -/
inductive SubmitOutcome where
  | success
  | httpError (status : Nat)
  | networkError
deriving DecidableEq

/-- The status-specific error message of `add-player/page.tsx` lines 46-56. -/
def submitErrorMessage (status : Nat) : String :=
  if status = 401 then
    "Error 401: Unauthorized. API key is required or invalid."
  else if status = 403 then
    "Error 403: Forbidden. Invalid API key provided."
  else if status = 404 then
    "Error 404: API endpoint not found. The /api/players route does not exist."
  else if status = 429 then
    "Error 429: Rate limit exceeded. Please try again later."
  else
    "Error " ++ toString status ++ ": Failed to create player"

/-- The `handleSubmit` handler of `add-player/page.tsx` lines 22-71 as a
state transition over the form's hooks, indexed by the fetch outcome: it sets
`isLoading` and clears the message, then on success clears the three inputs
and sets the success message, on an HTTP error sets the status message, on a
network error sets the network message; the `finally` block resets
`isLoading`. -/
def handleSubmit (outcome : SubmitOutcome) (st : AddPlayerForm) : AddPlayerForm :=
  let st1 := { st with isLoading := true, errorMessage := "" }
  let st2 :=
    match outcome with
    | .success =>
        { st1 with playerName := "", playerPosition := "", playerTeam := "",
                   errorMessage := "Player created successfully!" }
    | .httpError status => { st1 with errorMessage := submitErrorMessage status }
    | .networkError =>
        { st1 with errorMessage := "Network error: Failed to connect to the server" }
  { st2 with isLoading := false }

/-- C10: for every submission that fails (non-2xx status or network error)
the three input fields keep their entered values; they are cleared exactly on
success; and `isLoading` is reset to `false` on every outcome. -/
theorem handleSubmit_failure_keeps_fields (st : AddPlayerForm) (o : SubmitOutcome) :
    (o ≠ .success →
      (handleSubmit o st).playerName = st.playerName
      ∧ (handleSubmit o st).playerPosition = st.playerPosition
      ∧ (handleSubmit o st).playerTeam = st.playerTeam)
    ∧ (o = .success →
      (handleSubmit o st).playerName = ""
      ∧ (handleSubmit o st).playerPosition = ""
      ∧ (handleSubmit o st).playerTeam = "")
    ∧ (handleSubmit o st).isLoading = false := by
  refine ⟨?_, ?_, ?_⟩
  · intro h
    cases o with
    | success => exact absurd rfl h
    | httpError status => exact ⟨rfl, rfl, rfl⟩
    | networkError => exact ⟨rfl, rfl, rfl⟩
  · rintro rfl
    exact ⟨rfl, rfl, rfl⟩
  · cases o <;> rfl

/-- A concrete filled-in form state used in the C10 witness. -/
def sampleForm : AddPlayerForm :=
  { playerName := "LeBron James", playerPosition := "SF", playerTeam := "Lakers",
    errorMessage := "", isLoading := true }

/-- Witness for C10: a 500 response leaves the three entered values in place
and resets the loading flag. -/
theorem handleSubmit_failure_keeps_fields_witness :
    (SubmitOutcome.httpError 500 ≠ .success)
    ∧ ((handleSubmit (.httpError 500) sampleForm).playerName = sampleForm.playerName
      ∧ (handleSubmit (.httpError 500) sampleForm).playerPosition
          = sampleForm.playerPosition
      ∧ (handleSubmit (.httpError 500) sampleForm).playerTeam = sampleForm.playerTeam)
    ∧ (handleSubmit (.httpError 500) sampleForm).isLoading = false :=
  ⟨by decide,
   (handleSubmit_failure_keeps_fields sampleForm (.httpError 500)).1 (by decide),
   (handleSubmit_failure_keeps_fields sampleForm (.httpError 500)).2.2⟩
